import Mathlib

/-!
Verification development for the `to-absolute` library (src/lib.rs), a
Windows-oriented path resolver.  Paths are embedded as their ordered
component sequences (the view produced by `Path::components()`); the
filesystem canonicalization primitive (`std::fs::canonicalize`) and the
process environment (`std::env::current_dir`) are external collaborators
and appear as explicit parameters.
-/

set_option autoImplicit false

namespace ToAbsolute

/-- Windows path-prefix kinds, mirroring `std::path::Prefix`. -/
inductive PathPrefix where
  | Verbatim (s : String)
  | VerbatimUNC (server share : String)
  | VerbatimDisk (letter : Char)
  | DeviceNS (s : String)
  | UNC (server share : String)
  | Disk (letter : Char)
deriving DecidableEq, Repr

/-- Path components, mirroring `std::path::Component`. -/
inductive Component where
  | Prefix (p : PathPrefix)
  | RootDir
  | CurDir
  | ParentDir
  | Normal (s : String)
deriving DecidableEq, Repr

/-- A path value is its ordered component sequence. -/
abbrev PathV := List Component

/-- Abstract `std::io::Error` value: only its message payload matters here. -/
structure IoErr where
  msg : String
deriving DecidableEq, Repr

/-- The library's error enumeration (`enum Error` in src/lib.rs). -/
inductive Error where
  | CurrentIsRelative
  | UnsupportedPrefix
  | IoError (e : IoErr)
deriving DecidableEq, Repr

/-- The `From<io::Error> for Error` conversion (src/lib.rs lines 35-39). -/
def Error.fromIo (e : IoErr) : Error := Error.IoError e

/-- Whether the component sequence starts with a prefix component
(`Path::prefix().is_some()` for a path given by its components). -/
def hasPrefixComp : PathV → Bool
  | Component.Prefix _ :: _ => true
  | _ => false

/-- Rust: every prefix kind other than a plain disk designator implies a
root on its own (`Path::has_root` doc: "has any non-disk prefix"). -/
def PathPrefix.hasImplicitRoot : PathPrefix → Bool
  | PathPrefix.Disk _ => false
  | _ => true

/-- Windows `Path::has_root` on the component view: the path begins with a
separator, or with a prefix followed by a separator, or with a non-disk
prefix. -/
def hasRoot : PathV → Bool
  | Component.RootDir :: _ => true
  | Component.Prefix p :: rest =>
      p.hasImplicitRoot ||
        (match rest with
          | Component.RootDir :: _ => true
          | _ => false)
  | _ => false

/-- Windows `Path::is_absolute`: the path has a root and a prefix. -/
def isAbsolute (p : PathV) : Bool := hasPrefixComp p && hasRoot p

/-- The leading prefix component of a path, kept by a rooted push. -/
def prefixComponents : PathV → PathV
  | Component.Prefix p :: _ => [Component.Prefix p]
  | _ => []

/-- Windows `PathBuf::push` (and hence `Path::join`) on the component view:
a path with a prefix replaces the buffer; a rooted, prefix-free path
replaces everything but the buffer's prefix; anything else is appended. -/
def join (base p : PathV) : PathV :=
  if hasPrefixComp p then p
  else if hasRoot p then prefixComponents base ++ p
  else base ++ p

/-- String form of a prefix component (`Component::as_os_str` on a prefix). -/
def prefixAsString : PathPrefix → String
  | PathPrefix.Verbatim s => "\\\\?\\" ++ s
  | PathPrefix.VerbatimUNC server share => "\\\\?\\UNC\\" ++ server ++ "\\" ++ share
  | PathPrefix.VerbatimDisk d => "\\\\?\\" ++ String.mk [d, ':']
  | PathPrefix.DeviceNS s => "\\\\.\\" ++ s
  | PathPrefix.UNC server share => "\\\\" ++ server ++ "\\" ++ share
  | PathPrefix.Disk d => String.mk [d, ':']

/-- String form of a component (`Component::as_os_str`). -/
def componentAsString : Component → String
  | Component.Prefix p => prefixAsString p
  | Component.RootDir => "\\"
  | Component.CurDir => "."
  | Component.ParentDir => ".."
  | Component.Normal s => s

/-- Whether the prefix kind is one the library re-encodes (the `Disk` and
`VerbatimDisk` arms of the `match` in `canonicalize`, src/lib.rs 70-74). -/
def supportedKind : PathPrefix → Bool
  | PathPrefix.Disk _ => true
  | PathPrefix.VerbatimDisk _ => true
  | _ => false

/-- The per-component re-encoding closure inside `canonicalize`
(src/lib.rs lines 68-77): a disk or verbatim-disk prefix becomes the
two-character string letter-colon, any other prefix is an
`UnsupportedPrefix` error, every other component is its string form. -/
def reencodeComponent : Component → Except Error String
  | Component.Prefix p =>
    match p with
    | PathPrefix.Disk d => Except.ok (String.mk [d, ':'])
    | PathPrefix.VerbatimDisk d => Except.ok (String.mk [d, ':'])
    | _ => Except.error Error.UnsupportedPrefix
  | other => Except.ok (componentAsString other)

/-- Short-circuiting collection of the mapped iterator
(`components.collect::<Result<_>>()`): the first error wins, otherwise the
re-encoded strings are produced in order. -/
def collectResults : List Component → Except Error (List String)
  | [] => Except.ok []
  | c :: rest =>
    match reencodeComponent c with
    | Except.error e => Except.error e
    | Except.ok s =>
      match collectResults rest with
      | Except.error e => Except.error e
      | Except.ok ss => Except.ok (s :: ss)

/-- Re-parse of one collected component string when it is pushed onto the
result `PathBuf`: the strings produced by `reencodeComponent` are a
separator, a dot, a dot-dot, a letter-colon disk designator, or a plain
segment. -/
def parseStr (s : String) : PathV :=
  if s.data = ['\\'] then [Component.RootDir]
  else if s.data = ['.'] then [Component.CurDir]
  else if s.data = ['.', '.'] then [Component.ParentDir]
  else
    match s.data with
    | [c, k] =>
      if c.isAlpha ∧ k = ':' then [Component.Prefix (PathPrefix.Disk c)]
      else [Component.Normal s]
    | _ => [Component.Normal s]

/-- `FromIterator<OsString> for PathBuf`: start from the empty buffer and
push each collected string in order. -/
def collectStrings (ss : List String) : PathV :=
  ss.foldl (fun acc s => join acc (parseStr s)) []

/-- The external filesystem canonicalization primitive
(`std::fs::canonicalize`): resolves dot, dot-dot and symlinks and requires
existence; modelled as an opaque-to-the-library function parameter. -/
structure FileSystem where
  canonicalizeFS : PathV → Except IoErr PathV

/-- The library's `canonicalize` (src/lib.rs lines 66-80): ask the
filesystem for the canonical path, re-encode each of its components in
order, and collect the strings into the result path. -/
def canonicalize (fs : FileSystem) (path : PathV) : Except Error PathV :=
  match fs.canonicalizeFS path with
  | Except.error e => Except.error (Error.fromIo e)
  | Except.ok canonicalized =>
    match collectResults canonicalized with
    | Except.error e => Except.error e
    | Except.ok strs => Except.ok (collectStrings strs)

/-- The library's `to_absolute` (src/lib.rs lines 43-57). -/
def to_absolute (fs : FileSystem) (current relative : PathV) : Except Error PathV :=
  if isAbsolute relative then Except.ok relative
  else if !(isAbsolute current) then Except.error Error.CurrentIsRelative
  else canonicalize fs (join current relative)

/-- Whether an `Except` value is a success (Rust `Result::is_ok`). -/
def isOkB {ε α : Type} : Except ε α → Bool
  | Except.ok _ => true
  | Except.error _ => false

instance {ε α : Type} [DecidableEq ε] [DecidableEq α] : DecidableEq (Except ε α)
  | Except.error x, Except.error y =>
    if h : x = y then isTrue (by rw [h])
    else isFalse (fun hh => h (by injection hh))
  | Except.error _, Except.ok _ => isFalse (fun h => Except.noConfusion h)
  | Except.ok _, Except.error _ => isFalse (fun h => Except.noConfusion h)
  | Except.ok x, Except.ok y =>
    if h : x = y then isTrue (by rw [h])
    else isFalse (fun hh => h (by injection hh))

/-- Whether a component is a prefix component. -/
def Component.isPrefixComponent : Component → Bool
  | Component.Prefix _ => true
  | _ => false

/-- The process environment: the current-working-directory accessor
(`std::env::current_dir`). -/
structure Env where
  currentDir : Except IoErr PathV

/-- The library's `to_absolute_from_current_dir` (src/lib.rs lines 61-64):
read the current directory first, converting its failure through
`Error.fromIo`, then delegate to `to_absolute`. -/
def to_absolute_from_current_dir (env : Env) (fs : FileSystem) (relative : PathV) :
    Except Error PathV :=
  match env.currentDir with
  | Except.error e => Except.error (Error.fromIo e)
  | Except.ok current_dir => to_absolute fs current_dir relative

/-! Concrete instances used by the closed witness theorems. -/

/-- A filesystem on which every canonicalization request fails. -/
def fsFail : FileSystem := ⟨fun _ => Except.error ⟨"No such file or directory"⟩⟩

/-- An environment whose current-directory accessor fails. -/
def envFail : Env := ⟨Except.error ⟨"current directory unavailable"⟩⟩

/-- A concrete absolute disk path, the components of `C:\`. -/
def diskRoot : PathV := [Component.Prefix (PathPrefix.Disk 'C'), Component.RootDir]

/-! Helper lemmas about the re-encoding pass. -/

theorem reencode_unsupported (k : PathPrefix) (hk : supportedKind k = false) :
    reencodeComponent (Component.Prefix k) = Except.error Error.UnsupportedPrefix := by
  cases k <;> simp_all [supportedKind, reencodeComponent]

theorem reencode_non_prefix (c : Component) (hc : c.isPrefixComponent = false) :
    reencodeComponent c = Except.ok (componentAsString c) := by
  cases c <;> simp_all [Component.isPrefixComponent, reencodeComponent]

theorem collectResults_unsupported (before : List Component) (k : PathPrefix)
    (rest : List Component) (hk : supportedKind k = false)
    (hbefore : ∀ c ∈ before, isOkB (reencodeComponent c) = true) :
    collectResults (before ++ Component.Prefix k :: rest)
      = Except.error Error.UnsupportedPrefix := by
  induction before with
  | nil => simp [collectResults, reencode_unsupported k hk]
  | cons c cs ih =>
    have hc : isOkB (reencodeComponent c) = true := hbefore c (by simp)
    obtain ⟨s, hs⟩ : ∃ s, reencodeComponent c = Except.ok s := by
      cases hre : reencodeComponent c with
      | error e => rw [hre] at hc; simp [isOkB] at hc
      | ok s => exact ⟨s, rfl⟩
    have ih2 := ih (fun c2 hc2 => hbefore c2 (by simp [hc2]))
    simp [collectResults, hs, ih2]

/-- C1: for any already-absolute path value `p` and any `current`
(absolute or not) and any filesystem state, `to_absolute` returns `p`
unchanged: no canonicalization is requested and the base-directory
check is bypassed. -/
theorem to_absolute_absolute_fast_path (fs : FileSystem) (current p : PathV)
    (h : isAbsolute p = true) :
    to_absolute fs current p = Except.ok p := by
  simp [to_absolute, h]

theorem to_absolute_absolute_fast_path_witness :
    isAbsolute diskRoot = true ∧
    to_absolute fsFail [Component.Normal "relative-base"] diskRoot = Except.ok diskRoot :=
  ⟨by decide,
    to_absolute_absolute_fast_path fsFail [Component.Normal "relative-base"] diskRoot
      (by decide)⟩

/-- C3: for any relative `current` and relative `relative`, `to_absolute`
fails with `CurrentIsRelative` on every filesystem state: the failure does
not depend on the filesystem, so it is decided before any access. -/
theorem to_absolute_current_is_relative (fs : FileSystem) (current relative : PathV)
    (hc : isAbsolute current = false) (hr : isAbsolute relative = false) :
    to_absolute fs current relative = Except.error Error.CurrentIsRelative := by
  simp [to_absolute, hc, hr]

theorem to_absolute_current_is_relative_witness :
    isAbsolute [Component.Normal "base"] = false ∧
    isAbsolute [Component.Normal "file"] = false ∧
    to_absolute fsFail [Component.Normal "base"] [Component.Normal "file"]
      = Except.error Error.CurrentIsRelative :=
  ⟨by decide, by decide,
    to_absolute_current_is_relative fsFail [Component.Normal "base"] [Component.Normal "file"]
      (by decide) (by decide)⟩

/-- C5: the re-encoding pass renders a disk-designator prefix and a
verbatim-disk-designator prefix as exactly the two-character string made
of the drive letter, preserved verbatim, followed by a colon. -/
theorem reencode_disk_designator (d : Char) :
    reencodeComponent (Component.Prefix (PathPrefix.Disk d))
        = Except.ok (String.mk [d, ':']) ∧
    reencodeComponent (Component.Prefix (PathPrefix.VerbatimDisk d))
        = Except.ok (String.mk [d, ':']) ∧
    (String.mk [d, ':']).data = [d, ':'] ∧
    (String.mk [d, ':']).length = 2 :=
  ⟨rfl, rfl, rfl, rfl⟩

/-- C6: when the branch for a relative input against an absolute base is
taken and the filesystem canonicalization of the joined path fails with an
I/O error `e`, `to_absolute` fails with `Error.IoError e`, wrapping the
environment's error without discarding it. -/
theorem to_absolute_io_error (fs : FileSystem) (current relative : PathV) (e : IoErr)
    (hc : isAbsolute current = true) (hr : isAbsolute relative = false)
    (hfs : fs.canonicalizeFS (join current relative) = Except.error e) :
    to_absolute fs current relative = Except.error (Error.IoError e) := by
  simp [to_absolute, hc, hr, canonicalize, hfs, Error.fromIo]

theorem to_absolute_io_error_witness :
    isAbsolute diskRoot = true ∧
    isAbsolute [Component.Normal "missing"] = false ∧
    fsFail.canonicalizeFS (join diskRoot [Component.Normal "missing"])
      = Except.error ⟨"No such file or directory"⟩ ∧
    to_absolute fsFail diskRoot [Component.Normal "missing"]
      = Except.error (Error.IoError ⟨"No such file or directory"⟩) :=
  ⟨by decide, by decide, rfl,
    to_absolute_io_error fsFail diskRoot [Component.Normal "missing"]
      ⟨"No such file or directory"⟩ (by decide) (by decide) rfl⟩

/-- C9: an absolute input path is returned unchanged even when it carries
a prefix kind the re-encoding pass would reject: the fast path consults no
prefix whitelist, so the result is never `UnsupportedPrefix`. -/
theorem to_absolute_fast_path_skips_whitelist (fs : FileSystem) (current : PathV)
    (k : PathPrefix) (rest : PathV)
    (hk : supportedKind k = false)
    (habs : isAbsolute (Component.Prefix k :: rest) = true) :
    to_absolute fs current (Component.Prefix k :: rest)
        = Except.ok (Component.Prefix k :: rest) ∧
    to_absolute fs current (Component.Prefix k :: rest)
        ≠ Except.error Error.UnsupportedPrefix := by
  constructor
  · simp [to_absolute, habs]
  · simp [to_absolute, habs]

theorem to_absolute_fast_path_skips_whitelist_witness :
    supportedKind (PathPrefix.Verbatim "pictures") = false ∧
    isAbsolute [Component.Prefix (PathPrefix.Verbatim "pictures"), Component.RootDir] = true ∧
    to_absolute fsFail [Component.Normal "base"]
        [Component.Prefix (PathPrefix.Verbatim "pictures"), Component.RootDir]
      = Except.ok [Component.Prefix (PathPrefix.Verbatim "pictures"), Component.RootDir] ∧
    to_absolute fsFail [Component.Normal "base"]
        [Component.Prefix (PathPrefix.Verbatim "pictures"), Component.RootDir]
      ≠ Except.error Error.UnsupportedPrefix :=
  ⟨by decide, by decide,
    (to_absolute_fast_path_skips_whitelist fsFail [Component.Normal "base"]
      (PathPrefix.Verbatim "pictures") [Component.RootDir] (by decide) (by decide)).1,
    (to_absolute_fast_path_skips_whitelist fsFail [Component.Normal "base"]
      (PathPrefix.Verbatim "pictures") [Component.RootDir] (by decide) (by decide)).2⟩

/-- C10: `to_absolute_from_current_dir` reads the current working
directory before examining its argument, so whenever the accessor fails
with `e` the call fails with `Error.IoError e` for every argument,
including an already-absolute one. -/
theorem from_current_dir_io_error (env : Env) (fs : FileSystem) (relative : PathV) (e : IoErr)
    (h : env.currentDir = Except.error e) :
    to_absolute_from_current_dir env fs relative = Except.error (Error.IoError e) := by
  simp [to_absolute_from_current_dir, h, Error.fromIo]

theorem from_current_dir_io_error_witness :
    envFail.currentDir = Except.error ⟨"current directory unavailable"⟩ ∧
    isAbsolute diskRoot = true ∧
    to_absolute_from_current_dir envFail fsFail diskRoot
      = Except.error (Error.IoError ⟨"current directory unavailable"⟩) :=
  ⟨rfl, by decide,
    from_current_dir_io_error envFail fsFail diskRoot
      ⟨"current directory unavailable"⟩ rfl⟩

/-- C4: if the filesystem's canonical answer contains a prefix component of
an unsupported kind, preceded only by components the re-encoder accepts,
then `canonicalize` fails with `UnsupportedPrefix`; the components after
the offending one are arbitrary (none of them is processed) and no partial
result is returned. -/
theorem canonicalize_unsupported_kind (fs : FileSystem) (path before : PathV)
    (k : PathPrefix) (rest : PathV)
    (hk : supportedKind k = false)
    (hbefore : ∀ c ∈ before, isOkB (reencodeComponent c) = true)
    (hfs : fs.canonicalizeFS path = Except.ok (before ++ Component.Prefix k :: rest)) :
    canonicalize fs path = Except.error Error.UnsupportedPrefix := by
  simp [canonicalize, hfs, collectResults_unsupported before k rest hk hbefore]

/-- A filesystem whose canonical answer carries a UNC share prefix. -/
def fsUNCShare : FileSystem :=
  ⟨fun _ => Except.ok
    [Component.Prefix (PathPrefix.UNC "server" "share"), Component.RootDir,
      Component.Normal "f"]⟩

theorem canonicalize_unsupported_kind_witness :
    supportedKind (PathPrefix.UNC "server" "share") = false ∧
    (∀ c ∈ ([] : PathV), isOkB (reencodeComponent c) = true) ∧
    fsUNCShare.canonicalizeFS [Component.CurDir]
      = Except.ok ([] ++ Component.Prefix (PathPrefix.UNC "server" "share")
          :: [Component.RootDir, Component.Normal "f"]) ∧
    canonicalize fsUNCShare [Component.CurDir] = Except.error Error.UnsupportedPrefix :=
  ⟨by decide, by decide, rfl,
    canonicalize_unsupported_kind fsUNCShare [Component.CurDir] []
      (PathPrefix.UNC "server" "share") [Component.RootDir, Component.Normal "f"]
      (by decide) (by decide) rfl⟩

/-- The device-path base `\\.\C:\` of the C7 counterexample. -/
def deviceBase : PathV := [Component.Prefix (PathPrefix.DeviceNS "C:"), Component.RootDir]

/-- The relative operand of the C7 counterexample. -/
def relativeC7 : PathV := [Component.Normal "Windows"]

/-- A filesystem that canonicalizes the joined device path to a
verbatim-disk answer, the way a real environment reports `\\.\C:\Windows`
as `\\?\C:\Windows`. -/
def fsDevice : FileSystem :=
  ⟨fun p =>
    if p = join deviceBase relativeC7 then
      Except.ok [Component.Prefix (PathPrefix.VerbatimDisk 'C'), Component.RootDir,
        Component.Normal "Windows"]
    else Except.error ⟨"No such file or directory"⟩⟩

/-- C7 counterexample: the base uses a device-path prefix form, the target
of the joined path exists and its segments are well-formed, yet resolution
succeeds — the canonical answer's verbatim-disk prefix is on the whitelist
and is re-encoded to `C:` — instead of failing with `UnsupportedPrefix`. -/
theorem to_absolute_unsupported_base_counterexample :
    supportedKind (PathPrefix.DeviceNS "C:") = false ∧
    isAbsolute deviceBase = true ∧
    isAbsolute relativeC7 = false ∧
    isOkB (fsDevice.canonicalizeFS (join deviceBase relativeC7)) = true ∧
    to_absolute fsDevice deviceBase relativeC7
      = Except.ok [Component.Prefix (PathPrefix.Disk 'C'), Component.RootDir,
          Component.Normal "Windows"] ∧
    to_absolute fsDevice deviceBase relativeC7
      ≠ Except.error Error.UnsupportedPrefix := by
  decide

/-- C7 (amended): a base path that begins with an unsupported prefix kind
(UNC, device, verbatim, ...) and a relative second argument make
`to_absolute` fail with `UnsupportedPrefix` whenever the filesystem
canonicalizes the joined path successfully (the target exists) and its
answer begins with any unsupported prefix kind — not necessarily the
base's own, e.g. a UNC base whose canonical answer is verbatim-UNC.
(When the canonical answer instead carries a disk or verbatim-disk
prefix, as a device base's can, the call succeeds; see the
counterexample.) -/
theorem to_absolute_unsupported_base (fs : FileSystem) (k k2 : PathPrefix)
    (baseRest relative canonRest : PathV)
    (hk : supportedKind k = false)
    (hk2 : supportedKind k2 = false)
    (hbase : isAbsolute (Component.Prefix k :: baseRest) = true)
    (hrel : isAbsolute relative = false)
    (hfs : fs.canonicalizeFS (join (Component.Prefix k :: baseRest) relative)
        = Except.ok (Component.Prefix k2 :: canonRest)) :
    to_absolute fs (Component.Prefix k :: baseRest) relative
      = Except.error Error.UnsupportedPrefix := by
  have h := collectResults_unsupported [] k2 canonRest hk2 (by intro c hc; cases hc)
  rw [List.nil_append] at h
  simp [to_absolute, hrel, hbase, canonicalize, hfs, h]

/-- A filesystem that canonicalizes a UNC-share path to a verbatim-UNC
answer, the way a real environment reports it. -/
def fsUNCVerbatim : FileSystem :=
  ⟨fun _ => Except.ok
    [Component.Prefix (PathPrefix.VerbatimUNC "server" "share"), Component.RootDir,
      Component.Normal "Windows", Component.Normal "System32"]⟩

theorem to_absolute_unsupported_base_witness :
    supportedKind (PathPrefix.UNC "server" "share") = false ∧
    supportedKind (PathPrefix.VerbatimUNC "server" "share") = false ∧
    isAbsolute [Component.Prefix (PathPrefix.UNC "server" "share"), Component.RootDir]
      = true ∧
    isAbsolute [Component.CurDir, Component.Normal "Windows", Component.Normal "System32"]
      = false ∧
    fsUNCVerbatim.canonicalizeFS
        (join [Component.Prefix (PathPrefix.UNC "server" "share"), Component.RootDir]
          [Component.CurDir, Component.Normal "Windows", Component.Normal "System32"])
      = Except.ok (Component.Prefix (PathPrefix.VerbatimUNC "server" "share")
          :: [Component.RootDir, Component.Normal "Windows", Component.Normal "System32"]) ∧
    to_absolute fsUNCVerbatim
        [Component.Prefix (PathPrefix.UNC "server" "share"), Component.RootDir]
        [Component.CurDir, Component.Normal "Windows", Component.Normal "System32"]
      = Except.error Error.UnsupportedPrefix :=
  ⟨by decide, by decide, by decide, by decide, rfl,
    to_absolute_unsupported_base fsUNCVerbatim (PathPrefix.UNC "server" "share")
      (PathPrefix.VerbatimUNC "server" "share") [Component.RootDir]
      [Component.CurDir, Component.Normal "Windows", Component.Normal "System32"]
      [Component.RootDir, Component.Normal "Windows", Component.Normal "System32"]
      (by decide) (by decide) (by decide) (by decide) rfl⟩

/-- Unfolding of `canonicalize` once the filesystem's answer is known. -/
theorem canonicalize_eq_of_fs (fs : FileSystem) (path canon : PathV)
    (hfs : fs.canonicalizeFS path = Except.ok canon) :
    canonicalize fs path =
      match collectResults canon with
      | Except.error e => Except.error e
      | Except.ok strs => Except.ok (collectStrings strs) := by
  rw [canonicalize, hfs]

theorem collectResults_spec (canon : List Component) (strs : List String)
    (h : collectResults canon = Except.ok strs) :
    strs.length = canon.length ∧
      ∀ (i : Nat) (c : Component), canon[i]? = some c →
        ∃ s, strs[i]? = some s ∧ reencodeComponent c = Except.ok s := by
  induction canon generalizing strs with
  | nil =>
    simp [collectResults] at h
    subst h
    exact ⟨rfl, fun i c hc => by simp at hc⟩
  | cons c0 rest ih =>
    rw [collectResults] at h
    cases hre : reencodeComponent c0 with
    | error e => rw [hre] at h; simp at h
    | ok s0 =>
      rw [hre] at h
      cases hcr : collectResults rest with
      | error e => rw [hcr] at h; simp at h
      | ok ss =>
        rw [hcr] at h
        simp at h
        subst h
        obtain ⟨hlen, hget⟩ := ih ss hcr
        refine ⟨by simp [hlen], ?_⟩
        intro i c hc
        cases i with
        | zero =>
          simp at hc
          subst hc
          exact ⟨s0, by simp, hre⟩
        | succ n =>
          simp at hc
          obtain ⟨s, hs1, hs2⟩ := hget n c hc
          exact ⟨s, by simpa using hs1, hs2⟩

/-- C8: on success, every component of the canonical path was re-encoded
exactly once, in left-to-right order (the i-th collected string comes from
the i-th component), a non-prefix component passes through as its string
form, and the result path is the in-order collection of those strings. -/
theorem canonicalize_consumes_in_order (fs : FileSystem) (path canon out : PathV)
    (hfs : fs.canonicalizeFS path = Except.ok canon)
    (hok : canonicalize fs path = Except.ok out) :
    ∃ strs : List String,
      collectResults canon = Except.ok strs ∧
      strs.length = canon.length ∧
      (∀ (i : Nat) (c : Component), canon[i]? = some c →
        ∃ s, strs[i]? = some s ∧ reencodeComponent c = Except.ok s ∧
          (c.isPrefixComponent = false → s = componentAsString c)) ∧
      out = collectStrings strs := by
  rw [canonicalize_eq_of_fs fs path canon hfs] at hok
  cases hcr : collectResults canon with
  | error e => rw [hcr] at hok; simp at hok
  | ok strs =>
    rw [hcr] at hok
    simp at hok
    subst hok
    obtain ⟨hlen, hget⟩ := collectResults_spec canon strs hcr
    refine ⟨strs, rfl, hlen, ?_, rfl⟩
    intro i c hc
    obtain ⟨s, hs1, hs2⟩ := hget i c hc
    refine ⟨s, hs1, hs2, ?_⟩
    intro hcp
    have hnp := reencode_non_prefix c hcp
    rw [hnp] at hs2
    injection hs2 with h
    exact h.symm

/-- A filesystem whose canonical answer is a well-formed disk path. -/
def fsDiskW : FileSystem :=
  ⟨fun _ => Except.ok
    [Component.Prefix (PathPrefix.Disk 'C'), Component.RootDir, Component.Normal "Windows"]⟩

/-- The canonical answer of `fsDiskW`. -/
def canonW8 : PathV :=
  [Component.Prefix (PathPrefix.Disk 'C'), Component.RootDir, Component.Normal "Windows"]

theorem canonicalize_consumes_in_order_witness :
    fsDiskW.canonicalizeFS [Component.CurDir] = Except.ok canonW8 ∧
    canonicalize fsDiskW [Component.CurDir] = Except.ok canonW8 ∧
    (∃ strs : List String,
      collectResults canonW8 = Except.ok strs ∧
      strs.length = canonW8.length ∧
      (∀ (i : Nat) (c : Component), canonW8[i]? = some c →
        ∃ s, strs[i]? = some s ∧ reencodeComponent c = Except.ok s ∧
          (c.isPrefixComponent = false → s = componentAsString c)) ∧
      canonW8 = collectStrings strs) :=
  ⟨rfl, by decide,
    canonicalize_consumes_in_order fsDiskW [Component.CurDir] canonW8 canonW8 rfl (by decide)⟩

/-! Claim C2 material: the join is the platform join, which is a plain
append only when the relative operand has neither a root nor a prefix. -/

/-- The base `C:\x` of the C2 counterexample. -/
def currentCE : PathV :=
  [Component.Prefix (PathPrefix.Disk 'C'), Component.RootDir, Component.Normal "x"]

/-- The relative operand `\foo` of the C2 counterexample: it is relative
(`is_absolute` is false, it has no prefix) but it is rooted. -/
def relativeCE : PathV := [Component.RootDir, Component.Normal "foo"]

/-- Canonical answer the filesystem gives for the appended component
sequence of the C2 counterexample. -/
def canonA : PathV :=
  [Component.Prefix (PathPrefix.Disk 'C'), Component.RootDir, Component.Normal "A"]

/-- Canonical answer the filesystem gives for the platform-joined path of
the C2 counterexample. -/
def canonB : PathV :=
  [Component.Prefix (PathPrefix.Disk 'C'), Component.RootDir, Component.Normal "B"]

/-- A filesystem on which both the appended sequence and the
platform-joined path exist, with distinct canonical forms. -/
def fsCE : FileSystem :=
  ⟨fun p =>
    if p = currentCE ++ relativeCE then Except.ok canonA
    else if p = join currentCE relativeCE then Except.ok canonB
    else Except.error ⟨"No such file or directory"⟩⟩

/-- C2 counterexample: `current = C:\x` is absolute, `relative = \foo` is
relative, the appended component sequence exists and canonicalizes to
`canonA`, yet `to_absolute` returns `canonB`, the canonicalization of the
platform join `C:\foo` — so the joined path is not the append of the two
component sequences. -/
theorem to_absolute_join_append_counterexample :
    isAbsolute currentCE = true ∧
    isAbsolute relativeCE = false ∧
    fsCE.canonicalizeFS (currentCE ++ relativeCE) = Except.ok canonA ∧
    canonicalize fsCE (currentCE ++ relativeCE) = Except.ok canonA ∧
    to_absolute fsCE currentCE relativeCE = Except.ok canonB ∧
    Except.ok (ε := Error) canonB ≠ Except.ok canonA := by
  decide

theorem parseStr_disk (d : Char) (hd : d.isAlpha = true) :
    parseStr (String.mk [d, ':']) = [Component.Prefix (PathPrefix.Disk d)] := by
  have hne : (':' : Char) ≠ '.' := by decide
  simp [parseStr, hd, hne]

theorem collectResults_normals (names : List String) :
    collectResults (names.map Component.Normal) = Except.ok names := by
  induction names with
  | nil => rfl
  | cons s ss ih => simp [collectResults, reencodeComponent, componentAsString, ih]

theorem foldl_join_normals (names : List String) (acc : PathV)
    (hnames : ∀ s ∈ names, parseStr s = [Component.Normal s]) :
    List.foldl (fun a s => join a (parseStr s)) acc names
      = acc ++ names.map Component.Normal := by
  induction names generalizing acc with
  | nil => simp
  | cons s ss ih =>
    have hs := hnames s (List.mem_cons_self s ss)
    have hstep : join acc (parseStr s) = acc ++ [Component.Normal s] := by
      rw [hs]; simp [join, hasPrefixComp, hasRoot]
    rw [List.foldl_cons, hstep,
      ih (acc ++ [Component.Normal s]) (fun t ht => hnames t (List.mem_cons_of_mem s ht))]
    simp

theorem collectStrings_disk (d : Char) (names : List String)
    (hd : d.isAlpha = true)
    (hnames : ∀ s ∈ names, parseStr s = [Component.Normal s]) :
    collectStrings (String.mk [d, ':'] :: "\\" :: names)
      = Component.Prefix (PathPrefix.Disk d) :: Component.RootDir
          :: names.map Component.Normal := by
  have h1 : join [] [Component.Prefix (PathPrefix.Disk d)]
      = [Component.Prefix (PathPrefix.Disk d)] := by
    simp [join, hasPrefixComp]
  have h2 : join [Component.Prefix (PathPrefix.Disk d)] (parseStr "\\")
      = [Component.Prefix (PathPrefix.Disk d), Component.RootDir] := by
    have hroot : parseStr "\\" = [Component.RootDir] := by decide
    rw [hroot]; simp [join, hasPrefixComp, hasRoot, prefixComponents]
  rw [collectStrings, List.foldl_cons, List.foldl_cons, parseStr_disk d hd, h1, h2,
    foldl_join_normals names _ hnames]
  simp

/-- C2 (amended): for an absolute `current` and a relative `relative`
with neither a root nor a prefix component, `to_absolute` appends
`relative`'s components to `current`'s, canonicalizes the joined path, and
— when the filesystem's canonical answer is a well-formed disk path —
returns exactly that canonical form.  (For a rooted relative operand the
platform join instead keeps only `current`'s prefix; see the
counterexample.) -/
theorem to_absolute_join_canonicalize (fs : FileSystem) (current relative : PathV)
    (d : Char) (names : List String)
    (hc : isAbsolute current = true)
    (hp : hasPrefixComp relative = false) (hr : hasRoot relative = false)
    (hd : d.isAlpha = true)
    (hnames : ∀ s ∈ names, parseStr s = [Component.Normal s])
    (hfs : fs.canonicalizeFS (current ++ relative)
        = Except.ok (Component.Prefix (PathPrefix.Disk d) :: Component.RootDir
            :: names.map Component.Normal)) :
    to_absolute fs current relative
      = Except.ok (Component.Prefix (PathPrefix.Disk d) :: Component.RootDir
          :: names.map Component.Normal) := by
  have hrel : isAbsolute relative = false := by simp [isAbsolute, hp]
  have hjoin : join current relative = current ++ relative := by
    simp [join, hp, hr]
  have hcoll : collectResults (Component.Prefix (PathPrefix.Disk d) :: Component.RootDir
      :: names.map Component.Normal)
      = Except.ok (String.mk [d, ':'] :: "\\" :: names) := by
    simp [collectResults, reencodeComponent, componentAsString, collectResults_normals names]
  simp [to_absolute, hrel, hc, canonicalize, hjoin, hfs, hcoll,
    collectStrings_disk d names hd hnames]

/-- The base `C:\` of the C2 witness. -/
def currentW : PathV := [Component.Prefix (PathPrefix.Disk 'C'), Component.RootDir]

/-- The relative operand `.\Windows\System32` of the C2 witness. -/
def relativeW : PathV :=
  [Component.CurDir, Component.Normal "Windows", Component.Normal "System32"]

/-- Canonical answer for the joined path of the C2 witness. -/
def canonW : PathV :=
  [Component.Prefix (PathPrefix.Disk 'C'), Component.RootDir,
    Component.Normal "Windows", Component.Normal "System32"]

/-- A filesystem on which exactly the joined path of the C2 witness
exists. -/
def fsJoinW : FileSystem :=
  ⟨fun p =>
    if p = currentW ++ relativeW then Except.ok canonW
    else Except.error ⟨"No such file or directory"⟩⟩

theorem to_absolute_join_canonicalize_witness :
    isAbsolute currentW = true ∧
    hasPrefixComp relativeW = false ∧
    hasRoot relativeW = false ∧
    Char.isAlpha 'C' = true ∧
    (∀ s ∈ ["Windows", "System32"], parseStr s = [Component.Normal s]) ∧
    fsJoinW.canonicalizeFS (currentW ++ relativeW)
      = Except.ok (Component.Prefix (PathPrefix.Disk 'C') :: Component.RootDir
          :: (["Windows", "System32"].map Component.Normal)) ∧
    to_absolute fsJoinW currentW relativeW
      = Except.ok (Component.Prefix (PathPrefix.Disk 'C') :: Component.RootDir
          :: (["Windows", "System32"].map Component.Normal)) :=
  ⟨by decide, by decide, by decide, by decide, by decide, by decide,
    to_absolute_join_canonicalize fsJoinW currentW relativeW 'C' ["Windows", "System32"]
      (by decide) (by decide) (by decide) (by decide) (by decide) (by decide)⟩

end ToAbsolute
